import Mathlib

/-!
Verification development for the CSharp-Review-MCP repository.

The file embeds, as executable Lean definitions, the two components the
frozen claims are about:

* the Roslyn-side rule/metrics engine (`roslyn-analyzer/Program.cs`):
  metrics, cyclomatic complexity, and the four suggestion generators,
  operating on a model of the Roslyn tree (a kind-tagged node with its
  verbatim text, identifier, modifiers, leading trivia and children);
* the orchestrator (`src/roslynAnalyzer.ts`): availability query,
  ephemeral staging, process outcome handling and result parsing, over an
  explicit filesystem state and an explicit external-process outcome.

Theorems about the claims follow the definitions.
-/

set_option linter.unusedVariables false

namespace CSRev

/-- Ordinal substring test: models .NET `String.Contains` and the string
searches the detectors perform on reconstructed node text. -/
def strContains (s pat : String) : Bool :=
  (List.range (s.data.length + 1)).any
    (fun i => (s.data.drop i).take pat.data.length == pat.data)

/-- Number of occurrences of `pat` in `s` (match positions). For the
dot-led LINQ separators used by the excessive-chaining rule the separators
never overlap (each contains a single dot, at position 0), so the sum of
these counts coincides with .NET
`text.Split(separators, StringSplitOptions.None).Length - 1`. -/
def occurrences (s pat : String) : Nat :=
  ((List.range s.data.length).filter
    (fun i => (s.data.drop i).take pat.data.length == pat.data)).length

/-- Lower-casing, modelling .NET `ToLower` on the ASCII identifiers and
keywords the detectors compare. -/
def strToLower (s : String) : String :=
  String.mk (s.data.map Char.toLower)

/-- Ordinal suffix test, modelling .NET `EndsWith` and the JavaScript
`String.prototype.endsWith`. -/
def strEndsWith (s pat : String) : Bool :=
  pat.data.isSuffixOf s.data

/-- Ordinal prefix test, modelling .NET `StartsWith`. -/
def strStartsWith (s pat : String) : Bool :=
  pat.data.isPrefixOf s.data

/-- `text.Split(sep)`: the separated segments, in order (an empty text
yields one empty segment, as in .NET). -/
def splitChar (sep : Char) : List Char → List (List Char)
  | [] => [[]]
  | c :: rest =>
    if c == sep then [] :: splitChar sep rest
    else
      match splitChar sep rest with
      | [] => [[c]]
      | h :: t => (c :: h) :: t

/-- Models .NET `string.IsNullOrWhiteSpace` on a (non-null) segment. -/
def isWhiteSpaceOnly (line : List Char) : Bool :=
  line.all (fun c => c.isWhitespace)

/-- `text.Split('\n').Length`: number of parts produced by splitting at
newline characters (count of newlines plus one). -/
def splitLineCount (s : String) : Nat :=
  (splitChar '\n' s.data).length

/-- The Roslyn `SyntaxKind`s the engine dispatches on.  `OfType<...>`
queries are modelled by kind-set predicates below. -/
inductive NodeKind where
  | compilationUnit
  | classDeclaration
  | fieldDeclaration
  | propertyDeclaration
  | constructorDeclaration
  | methodDeclaration
  | parameterList
  | block
  | localDeclarationStatement
  | variableDeclaration
  | variableDeclarator
  | equalsValueClause
  | expressionStatement
  | ifStatement
  | whileStatement
  | forStatement
  | forEachStatement
  | doStatement
  | switchStatement
  | switchSection
  | caseSwitchLabel
  | tryStatement
  | catchClause
  | catchDeclaration
  | throwStatement
  | conditionalExpression
  | logicalAndExpression
  | logicalOrExpression
  | addExpression
  | subtractExpression
  | equalsExpression
  | greaterThanExpression
  | assignmentExpression
  | invocationExpression
  | memberAccessExpression
  | identifierName
  | predefinedType
  | objectCreationExpression
  | awaitExpression
  | queryExpression
  | simpleLambdaExpression
  | argumentList
  | argument
  | stringLiteralExpression
  | numericLiteralExpression
  | trueLiteralExpression
  | falseLiteralExpression
deriving DecidableEq, Repr

/-- Declaration modifier tokens consulted by the style rules. -/
inductive Modifier where
  | publicKeyword
  | privateKeyword
  | staticKeyword
  | asyncKeyword
  | otherModifier
deriving DecidableEq, Repr

/-- Leading-trivia kinds consulted by `HasDocumentationComment`. -/
inductive TriviaKind where
  | singleLineDocumentationCommentTrivia
  | multiLineDocumentationCommentTrivia
  | otherTrivia
deriving DecidableEq, Repr

mutual

/-- Model of a Roslyn `SyntaxNode`: a kind tag, the node's verbatim
source text (`ToString()`), its identifier token text (meaningful for
declarations and declarators, empty elsewhere), its modifier tokens, its
leading trivia and its ordered children.  Read-only to the engine, as the
specification requires.  The child sequence is a mutually inductive list
so that the tree traversals below are structurally recursive. -/
inductive SyntaxNode where
  | mk (kind : NodeKind) (text : String) (ident : String)
      (modifiers : List Modifier) (leadingTrivia : List TriviaKind)
      (childSeq : SyntaxNodes)

/-- The ordered child sequence of a node. -/
inductive SyntaxNodes where
  | nil
  | cons (head : SyntaxNode) (tail : SyntaxNodes)

end

/-- The child sequence as an ordinary list. -/
def SyntaxNodes.toList : SyntaxNodes → List SyntaxNode
  | SyntaxNodes.nil => []
  | SyntaxNodes.cons h t => h :: t.toList

/-- A child sequence from an ordinary list. -/
def SyntaxNodes.ofList : List SyntaxNode → SyntaxNodes
  | [] => SyntaxNodes.nil
  | h :: t => SyntaxNodes.cons h (SyntaxNodes.ofList t)

/-- Node constructor taking the children as an ordinary list. -/
def node (kind : NodeKind) (text ident : String) (modifiers : List Modifier)
    (leadingTrivia : List TriviaKind) (children : List SyntaxNode) :
    SyntaxNode :=
  SyntaxNode.mk kind text ident modifiers leadingTrivia
    (SyntaxNodes.ofList children)

/-- The node's kind tag. -/
def SyntaxNode.kind : SyntaxNode → NodeKind
  | SyntaxNode.mk k _ _ _ _ _ => k

/-- The node's verbatim source text (`ToString()`). -/
def SyntaxNode.text : SyntaxNode → String
  | SyntaxNode.mk _ t _ _ _ _ => t

/-- The node's identifier token text (`Identifier.Text`). -/
def SyntaxNode.ident : SyntaxNode → String
  | SyntaxNode.mk _ _ i _ _ _ => i

/-- The node's modifier tokens (`Modifiers`). -/
def SyntaxNode.modifiers : SyntaxNode → List Modifier
  | SyntaxNode.mk _ _ _ m _ _ => m

/-- The node's leading trivia (`GetLeadingTrivia()`). -/
def SyntaxNode.leadingTrivia : SyntaxNode → List TriviaKind
  | SyntaxNode.mk _ _ _ _ tr _ => tr

/-- The node's ordered children (`ChildNodes()`), as a list. -/
def SyntaxNode.children : SyntaxNode → List SyntaxNode
  | SyntaxNode.mk _ _ _ _ _ cs => cs.toList

/-- A placeholder node (used only to total the partial typed accessors;
no rule ever matches it because its kind set is empty of interest). -/
def nullNode : SyntaxNode :=
  node NodeKind.compilationUnit "" "" [] [] []

mutual

/-- `DescendantNodes()` of one node, in document order. -/
def descendants : SyntaxNode → List SyntaxNode
  | SyntaxNode.mk _ _ _ _ _ cs => descList cs

/-- `DescendantNodes()` of the nodes of a child sequence, in document
order: each node is listed before its own descendants. -/
def descList : SyntaxNodes → List SyntaxNode
  | SyntaxNodes.nil => []
  | SyntaxNodes.cons n rest => n :: (descendants n ++ descList rest)

end

mutual

/-- All (parent, node) pairs below a node, in document order;
`Prod.snd` of this list is exactly `descendants`.  Used to model the
`.Parent` accesses of the detectors. -/
def edges : SyntaxNode → List (SyntaxNode × SyntaxNode)
  | SyntaxNode.mk k t i m tr cs =>
      edgeList (SyntaxNode.mk k t i m tr cs) cs

/-- Parent/child pairs of a child sequence under a given parent. -/
def edgeList : SyntaxNode → SyntaxNodes → List (SyntaxNode × SyntaxNode)
  | _, SyntaxNodes.nil => []
  | p, SyntaxNodes.cons n rest => (p, n) :: (edges n ++ edgeList p rest)

end

/-- `OfType<BinaryExpressionSyntax>` membership. -/
def isBinaryExpressionKind : NodeKind → Bool
  | NodeKind.logicalAndExpression => true
  | NodeKind.logicalOrExpression => true
  | NodeKind.addExpression => true
  | NodeKind.subtractExpression => true
  | NodeKind.equalsExpression => true
  | NodeKind.greaterThanExpression => true
  | _ => false

/-- `OfType<LiteralExpressionSyntax>` membership. -/
def isLiteralExpressionKind : NodeKind → Bool
  | NodeKind.stringLiteralExpression => true
  | NodeKind.numericLiteralExpression => true
  | NodeKind.trueLiteralExpression => true
  | NodeKind.falseLiteralExpression => true
  | _ => false

/-- `MemberDeclarationSyntax` membership, for `ClassDeclaration.Members`. -/
def isMemberDeclarationKind : NodeKind → Bool
  | NodeKind.classDeclaration => true
  | NodeKind.fieldDeclaration => true
  | NodeKind.propertyDeclaration => true
  | NodeKind.constructorDeclaration => true
  | NodeKind.methodDeclaration => true
  | _ => false

/-- `root.DescendantNodes().OfType<K>().Count()` for a single kind. -/
def countOfKind (k : NodeKind) (root : SyntaxNode) : Nat :=
  ((descendants root).filter (fun n => n.kind == k)).length

/-- `CalculateCyclomaticComplexity` (Program.cs): base complexity 1, plus
one per `if`/`while`/`for`/`foreach`/case-label/`catch`/conditional
descendant, plus one per logical-AND/logical-OR binary expression. -/
def CalculateCyclomaticComplexity (root : SyntaxNode) : Nat :=
  1
  + countOfKind NodeKind.ifStatement root
  + countOfKind NodeKind.whileStatement root
  + countOfKind NodeKind.forStatement root
  + countOfKind NodeKind.forEachStatement root
  + countOfKind NodeKind.caseSwitchLabel root
  + countOfKind NodeKind.catchClause root
  + countOfKind NodeKind.conditionalExpression root
  + ((descendants root).filter (fun n =>
      isBinaryExpressionKind n.kind &&
        (n.kind == NodeKind.logicalAndExpression ||
         n.kind == NodeKind.logicalOrExpression))).length

/-- The wire-contract metrics record (`CodeMetrics` in both Program.cs
and roslynAnalyzer.ts); fields are C# `int`s. -/
structure CodeMetrics where
  classes : Int
  methods : Int
  lines : Int
  complexity : Int
deriving DecidableEq, Repr

/-- `CalculateMetrics` (Program.cs): class and method declaration counts
over the whole tree, non-blank line count of the reconstructed full text,
and whole-unit cyclomatic complexity. -/
def CalculateMetrics (root : SyntaxNode) : CodeMetrics :=
  { classes := (countOfKind NodeKind.classDeclaration root : Int)
  , methods := (countOfKind NodeKind.methodDeclaration root : Int)
  , lines := (((splitChar '\n' root.text.data).filter
      (fun line => !isWhiteSpaceOnly line)).length : Int)
  , complexity := (CalculateCyclomaticComplexity root : Int) }

/-- First child of a given kind: models the typed child accessors of the
Roslyn syntax classes (each typed child slot holds at most one node). -/
def firstChildOfKind (k : NodeKind) (n : SyntaxNode) : Option SyntaxNode :=
  n.children.find? (fun c => c.kind == k)

/-- `AssignmentExpressionSyntax.Left`: the first child of an assignment. -/
def assignmentLeft (n : SyntaxNode) : SyntaxNode :=
  n.children.headD nullNode

/-- `BinaryExpressionSyntax.Left`. -/
def binaryLeft (n : SyntaxNode) : SyntaxNode :=
  n.children.headD nullNode

/-- `BinaryExpressionSyntax.Right`. -/
def binaryRight (n : SyntaxNode) : SyntaxNode :=
  (n.children.drop 1).headD nullNode

/-- `InvocationExpressionSyntax.Expression` (the callee). -/
def invocationCallee (n : SyntaxNode) : SyntaxNode :=
  n.children.headD nullNode

/-- `ObjectCreationExpressionSyntax.Type`. -/
def objectCreationType (n : SyntaxNode) : SyntaxNode :=
  n.children.headD nullNode

/-- `VariableDeclaratorSyntax.Initializer?.Value`: the expression of the
equals-value clause, when the declarator has one. -/
def initializerValue (decl : SyntaxNode) : Option SyntaxNode :=
  (firstChildOfKind NodeKind.equalsValueClause decl).bind
    (fun c => c.children.head?)

/-- `CatchClauseSyntax.Declaration?.Type.ToString()`. -/
def catchDeclarationType (c : SyntaxNode) : Option String :=
  ((firstChildOfKind NodeKind.catchDeclaration c).bind
    (fun d => d.children.head?)).map (fun t => t.text)

/-- `CatchClauseSyntax.Block`. -/
def catchBlock (c : SyntaxNode) : SyntaxNode :=
  (firstChildOfKind NodeKind.block c).getD nullNode

/-- `HasDocumentationComment` (Program.cs): the leading trivia holds a
single-line or multi-line documentation comment. -/
def HasDocumentationComment (node : SyntaxNode) : Bool :=
  node.leadingTrivia.any (fun t =>
    t == TriviaKind.singleLineDocumentationCommentTrivia ||
    t == TriviaKind.multiLineDocumentationCommentTrivia)

/-- Roslyn diagnostic severity (`DiagnosticSeverity`). -/
inductive DiagSeverity where
  | error
  | warning
  | info
  | hidden
deriving DecidableEq, Repr

/-- A compiler diagnostic as produced by the external Tree Provider
(Roslyn `Diagnostic` restricted to the data Program.cs reads from it);
`startLine`/`startColumn` are the 0-based positions of its line span. -/
structure RoslynDiagnostic where
  id : String
  severity : DiagSeverity
  message : String
  category : String
  startLine : Nat
  startColumn : Nat
  path : String
deriving DecidableEq, Repr

/-- `DiagnosticSeverity.ToString()`. -/
def severityToString : DiagSeverity → String
  | DiagSeverity.error => "Error"
  | DiagSeverity.warning => "Warning"
  | DiagSeverity.info => "Info"
  | DiagSeverity.hidden => "Hidden"

/-- Wire-contract `location` object (`LocationInfo` in Program.cs,
the `location` field of `DiagnosticResult` in roslynAnalyzer.ts). -/
structure LocationInfo where
  line : Int
  column : Int
  file : String
deriving DecidableEq, Repr

/-- Wire-contract diagnostic (`DiagnosticResult` in Program.cs and in
roslynAnalyzer.ts). -/
structure DiagnosticResult where
  id : String
  severity : String
  message : String
  location : Option LocationInfo
  category : String
deriving DecidableEq, Repr

/-- The full wire contract (`AnalysisResult` in Program.cs and in
roslynAnalyzer.ts). -/
structure AnalysisResult where
  diagnostics : List DiagnosticResult
  metrics : CodeMetrics
  suggestions : List String
deriving DecidableEq, Repr

/-- The diagnostic conversion loop of `AnalyzeCode` (Program.cs): 1-based
line/column from the 0-based line span, severity rendered as text. -/
def convertDiagnostic (d : RoslynDiagnostic) : DiagnosticResult :=
  { id := d.id
  , severity := severityToString d.severity
  , message := d.message
  , location := some
      { line := (d.startLine : Int) + 1
      , column := (d.startColumn : Int) + 1
      , file := d.path }
  , category := d.category }

/-- Long-method message. -/
def longMethodMessage (name : String) (lineCount : Nat) : String :=
  "Method \x27" ++ name ++ "\x27 is " ++ toString lineCount ++
    " lines long. Consider breaking it into smaller methods."

/-- Missing-documentation message. -/
def missingDocMessage (name : String) : String :=
  "Public method \x27" ++ name ++ "\x27 is missing XML documentation."

/-- Async-suffix message. -/
def asyncSuffixMessage (name : String) : String :=
  "Async method \x27" ++ name ++ "\x27 should have \x27Async\x27 suffix."

/-- Large-class message. -/
def largeClassMessage (name : String) (memberCount : Nat) : String :=
  "Class \x27" ++ name ++ "\x27 has " ++ toString memberCount ++
    " members. Consider splitting into smaller classes."

/-- High-complexity message. -/
def highComplexityMessage (name : String) (complexity : Nat) : String :=
  "Method \x27" ++ name ++ "\x27 has high cyclomatic complexity (" ++
    toString complexity ++ "). Consider refactoring."

/-- `GenerateSuggestions` (Program.cs): the five basic/style checks, in
source order, each appending to one list. -/
def GenerateSuggestions (root : SyntaxNode)
    (diagnostics : List RoslynDiagnostic) : List String :=
  let methods := (descendants root).filter
    (fun n => n.kind == NodeKind.methodDeclaration)
  let longMethods := methods.filterMap (fun m =>
    let lineCount := splitLineCount m.text
    if lineCount > 50 then some (longMethodMessage m.ident lineCount)
    else none)
  let publicMethods := methods.filter (fun m =>
    m.modifiers.any (fun mo => mo == Modifier.publicKeyword))
  let missingDocs := publicMethods.filterMap (fun m =>
    if !HasDocumentationComment m then some (missingDocMessage m.ident)
    else none)
  let asyncMethods := methods.filter (fun m =>
    m.modifiers.any (fun mo => mo == Modifier.asyncKeyword))
  let asyncNames := asyncMethods.filterMap (fun m =>
    if !(strEndsWith m.ident "Async") then some (asyncSuffixMessage m.ident)
    else none)
  let classes := (descendants root).filter
    (fun n => n.kind == NodeKind.classDeclaration)
  let largeClasses := classes.filterMap (fun cls =>
    let memberCount :=
      (cls.children.filter (fun c => isMemberDeclarationKind c.kind)).length
    if memberCount > 20 then some (largeClassMessage cls.ident memberCount)
    else none)
  let highComplexities := methods.filterMap (fun m =>
    let complexity := CalculateCyclomaticComplexity m
    if complexity > 10 then some (highComplexityMessage m.ident complexity)
    else none)
  longMethods ++ missingDocs ++ asyncNames ++ largeClasses ++ highComplexities

/-- SQL-injection message. -/
def sqlInjectionMessage : String :=
  "SECURITY: Potential SQL injection risk detected. Use parameterized queries instead of string concatenation."

/-- Hardcoded-secret message for the assignment branch. -/
def secretAssignmentMessage : String :=
  "SECURITY: Hardcoded sensitive data detected. Use secure configuration instead."

/-- Hardcoded-secret message for the declarator branch. -/
def secretVariableMessage (name : String) : String :=
  "SECURITY: Hardcoded sensitive data in variable \x27" ++ name ++
    "\x27. Use secure configuration."

/-- Swallowed-exception message. -/
def swallowedExceptionMessage : String :=
  "SECURITY: Catching general Exception without logging or rethrowing can hide security issues."

/-- Unsafe-file-operation message. -/
def unsafeFileMessage (methodName : String) : String :=
  "SECURITY: File system operation \x27" ++ methodName ++
    "\x27 detected. Ensure proper path validation to prevent directory traversal attacks."

/-- Weak-RNG message. -/
def weakRandomMessage : String :=
  "SECURITY: System.Random is not cryptographically secure. Use RandomNumberGenerator for security-sensitive operations."

/-- The SQL keyword test of the SQL-injection block (on lower-cased
concatenation text). -/
def sqlKeywordMatch (text1 : String) : Bool :=
  strContains text1 "select" || strContains text1 "insert" ||
    strContains text1 "update" || strContains text1 "delete"

/-- The SQL-injection block: first matching string concatenation reports
once (the loop breaks after the first add). -/
def sqlInjectionSuggestions (root : SyntaxNode) : List String :=
  let stringConcatenations := (descendants root).filter (fun b =>
    isBinaryExpressionKind b.kind && b.kind == NodeKind.addExpression)
  match stringConcatenations.find? (fun concat =>
      sqlKeywordMatch (strToLower concat.text)) with
  | some _ => [sqlInjectionMessage]
  | none => []

/-- Keyword test on the lower-cased left-hand side of an assignment. -/
def secretKeywordsLeft (leftSide : String) : Bool :=
  strContains leftSide "password" || strContains leftSide "secret" ||
    strContains leftSide "apikey" || strContains leftSide "connectionstring"

/-- Keyword test on the lower-cased declarator identifier. -/
def secretKeywordsVar (varName : String) : Bool :=
  strContains varName "password" || strContains varName "secret" ||
    strContains varName "apikey"

/-- The hardcoded-secret literal loop of `GenerateSecuritySuggestions`,
over (parent, literal) pairs in document order.  A matching assignment
adds the constant message and breaks out of the whole loop; a matching
declarator adds a per-variable message and continues. -/
def secretScan : List (SyntaxNode × SyntaxNode) → List String
  | [] => []
  | (parent, lit) :: rest =>
    if lit.kind == NodeKind.stringLiteralExpression then
      if parent.kind == NodeKind.assignmentExpression then
        if secretKeywordsLeft (strToLower (assignmentLeft parent).text) then
          [secretAssignmentMessage]
        else secretScan rest
      else if parent.kind == NodeKind.variableDeclarator then
        if secretKeywordsVar (strToLower parent.ident) then
          secretVariableMessage parent.ident :: secretScan rest
        else secretScan rest
      else secretScan rest
    else secretScan rest

/-- The hardcoded-secret block: scans the
`DescendantNodes().OfType<LiteralExpressionSyntax>()` sequence together
with each literal's parent. -/
def hardcodedSecretSuggestions (root : SyntaxNode) : List String :=
  secretScan ((edges root).filter (fun pc => isLiteralExpressionKind pc.2.kind))

/-- The swallowed-exception block: one message per offending catch
clause (no break). -/
def swallowedExceptionSuggestions (root : SyntaxNode) : List String :=
  ((descendants root).filter
      (fun n => n.kind == NodeKind.catchClause)).filterMap (fun cc =>
    if catchDeclarationType cc == some "Exception" then
      let blk := catchBlock cc
      let hasThrow := (descendants blk).any
        (fun n => n.kind == NodeKind.throwStatement)
      let hasLogging := strContains (strToLower blk.text) "log"
      if !hasThrow && !hasLogging then some swallowedExceptionMessage
      else none
    else none)

/-- The unsafe-file-operation block: first matching invocation reports
once (break after the first add). -/
def unsafeFileSuggestions (root : SyntaxNode) : List String :=
  let invocations := (descendants root).filter
    (fun n => n.kind == NodeKind.invocationExpression)
  match invocations.find? (fun invocation =>
      let methodName := (invocationCallee invocation).text
      strContains methodName "File.Delete" ||
        strContains methodName "File.Move" ||
        strContains methodName "Directory.Delete" ||
        strContains methodName "File.WriteAllText") with
  | some invocation => [unsafeFileMessage (invocationCallee invocation).text]
  | none => []

/-- The weak-RNG block: one message per `new Random()` occurrence. -/
def weakRandomSuggestions (root : SyntaxNode) : List String :=
  ((descendants root).filter
      (fun n => n.kind == NodeKind.objectCreationExpression)).filterMap
    (fun creation =>
      if (objectCreationType creation).text == "Random" then
        some weakRandomMessage
      else none)

/-- `GenerateSecuritySuggestions` (Program.cs): its five blocks run in
source order, each appending to one list. -/
def GenerateSecuritySuggestions (root : SyntaxNode) : List String :=
  sqlInjectionSuggestions root ++ hardcodedSecretSuggestions root ++
    swallowedExceptionSuggestions root ++ unsafeFileSuggestions root ++
    weakRandomSuggestions root

/-- String-concatenation-in-loop message. -/
def stringConcatInLoopMessage : String :=
  "PERFORMANCE: String concatenation inside loop detected. Use StringBuilder for better performance."

/-- ToList-before-Count/Any message. -/
def toListBeforeCountMessage : String :=
  "PERFORMANCE: Avoid calling ToList() before Count/Any. Use Count()/Any() directly on IEnumerable."

/-- Deferred-LINQ-query message. -/
def deferredQueryMessage (name : String) : String :=
  "PERFORMANCE: Variable \x27" ++ name ++
    "\x27 holds a deferred LINQ query. Consider materializing with ToList()/ToArray() if enumerated multiple times."

/-- string.Format message. -/
def stringFormatMessage : String :=
  "PERFORMANCE: Consider using string interpolation instead of string.Format for better readability and performance."

/-- ConfigureAwait message. -/
def configureAwaitMessage : String :=
  "PERFORMANCE: Consider using ConfigureAwait(false) in library code to avoid unnecessary context switches."

/-- Excessive-chaining message. -/
def excessiveChainingMessage : String :=
  "PERFORMANCE: Excessive LINQ method chaining detected. Consider combining operations or using query syntax."

/-- The loop kinds the string-concatenation rule scans
(`n is ForStatementSyntax || n is ForEachStatementSyntax || n is WhileStatementSyntax`). -/
def isLoopKind (k : NodeKind) : Bool :=
  k == NodeKind.forStatement || k == NodeKind.forEachStatement ||
    k == NodeKind.whileStatement

/-- `IsStringType` (Program.cs): heuristic string-type check for a
`+`-expression (either operand is a string literal or mentions
`.ToString()`). -/
def IsStringType (expression : SyntaxNode) : Bool :=
  let leftText := (binaryLeft expression).text
  let rightText := (binaryRight expression).text
  strStartsWith leftText "\x22" || strStartsWith rightText "\x22" ||
    strContains leftText ".ToString()" || strContains rightText ".ToString()"

/-- The string-concatenation-in-loop block: the first loop whose body
holds a matching `+`-expression reports once; the break exits the loop
scan entirely. -/
def stringConcatInLoopSuggestions (root : SyntaxNode) : List String :=
  let loops := (descendants root).filter (fun n => isLoopKind n.kind)
  match loops.find? (fun loop =>
      ((descendants loop).filter (fun b =>
        isBinaryExpressionKind b.kind &&
          b.kind == NodeKind.addExpression)).any IsStringType) with
  | some _ => [stringConcatInLoopMessage]
  | none => []

/-- The ToList-before-Count/Any block: for each invocation index `i`
(over the materialized invocation list), when invocation `i` mentions
`.ToList()` and one of the next three invocations mentions `.Count` or
`.Any()`, one message is added (the inner break limits each `i` to one
message, but the outer loop continues). -/
def toListBeforeCountSuggestions (root : SyntaxNode) : List String :=
  let invocations := (descendants root).filter
    (fun n => n.kind == NodeKind.invocationExpression)
  (List.range (invocations.length - 1)).filterMap (fun i =>
    let currentInvocation := (invocations.getD i nullNode).text
    if strContains currentInvocation ".ToList()" then
      if ((invocations.drop (i + 1)).take 3).any (fun next =>
          strContains next.text ".Count" || strContains next.text ".Any()") then
        some toListBeforeCountMessage
      else none
    else none)

/-- The deferred-query block: one message per variable declarator whose
initializer is an invocation matching the condition below.  The
condition is translated with the grouping C# gives the unparenthesized
chain `A || B || C && D && E`, namely `A || B || (C && D && E)`: the
`.ToList()`/`.ToArray()` exemption binds only to the `.OrderBy(`
disjunct. -/
def deferredQuerySuggestions (root : SyntaxNode) : List String :=
  let varDecls := (descendants root).filter
    (fun n => n.kind == NodeKind.variableDeclarator)
  varDecls.filterMap (fun vdecl =>
    match initializerValue vdecl with
    | some invocation =>
      if invocation.kind == NodeKind.invocationExpression then
        let invocationText := invocation.text
        if strContains invocationText ".Where(" ||
            strContains invocationText ".Select(" ||
            (strContains invocationText ".OrderBy(" &&
              !strContains invocationText ".ToList()" &&
              !strContains invocationText ".ToArray()") then
          some (deferredQueryMessage vdecl.ident)
        else none
      else none
    | none => none)

/-- The string.Format block: fires at most once, when any invocation
callee mentions `string.Format` or `String.Concat`. -/
def stringFormatSuggestions (root : SyntaxNode) : List String :=
  let stringFormatCalls := (descendants root).filter (fun inv =>
    inv.kind == NodeKind.invocationExpression &&
      (strContains (invocationCallee inv).text "string.Format" ||
        strContains (invocationCallee inv).text "String.Concat"))
  if !stringFormatCalls.isEmpty then [stringFormatMessage] else []

/-- The ConfigureAwait block: the first await expression lacking
`ConfigureAwait` reports once (break). -/
def configureAwaitSuggestions (root : SyntaxNode) : List String :=
  match ((descendants root).filter
      (fun n => n.kind == NodeKind.awaitExpression)).find?
      (fun aw => !strContains aw.text "ConfigureAwait") with
  | some _ => [configureAwaitMessage]
  | none => []

/-- The excessive-chaining block: among invocations mentioning
`.Where(` or `.Select(`, the first whose combined separator count
exceeds three reports once (break).  The separator count reproduces
`Split(separators, None).Length - 1`; see `occurrences`. -/
def excessiveChainingSuggestions (root : SyntaxNode) : List String :=
  let linqChains := (descendants root).filter (fun inv =>
    inv.kind == NodeKind.invocationExpression &&
      (strContains inv.text ".Where(" || strContains inv.text ".Select("))
  match linqChains.find? (fun chain =>
      let chainText := chain.text
      let chainCount := occurrences chainText ".Where(" +
        occurrences chainText ".Select(" + occurrences chainText ".OrderBy(" +
        occurrences chainText ".GroupBy("
      chainCount > 3) with
  | some _ => [excessiveChainingMessage]
  | none => []

/-- `GeneratePerformanceSuggestions` (Program.cs): its six blocks run in
source order, each appending to one list. -/
def GeneratePerformanceSuggestions (root : SyntaxNode) : List String :=
  stringConcatInLoopSuggestions root ++ toListBeforeCountSuggestions root ++
    deferredQuerySuggestions root ++ stringFormatSuggestions root ++
    configureAwaitSuggestions root ++ excessiveChainingSuggestions root

/-- Count-vs-Any message. -/
def countVsAnyMessage : String :=
  "LINQ: Use Any() instead of Count() > 0 for better performance."

/-- Where-Count message. -/
def whereCountMessage : String :=
  "LINQ: Use Count(predicate) instead of Where(predicate).Count() for better performance."

/-- Where-Any message. -/
def whereAnyMessage : String :=
  "LINQ: Use Any(predicate) instead of Where(predicate).Any() for better performance."

/-- Where-First message. -/
def whereFirstMessage : String :=
  "LINQ: Use First(predicate) instead of Where(predicate).First() for better performance."

/-- Identity-Select message. -/
def identitySelectMessage : String :=
  "LINQ: Redundant Select(x => x) detected. This is an identity operation and can be removed."

/-- OrderBy-First message. -/
def orderByFirstMessage : String :=
  "LINQ: Consider using MinBy/MaxBy instead of OrderBy().First() for better performance."

/-- ToList-Where message. -/
def toListWhereMessage : String :=
  "LINQ: Apply Where() filter before ToList() to avoid materializing unnecessary items."

/-- Complex-query message. -/
def complexQueryMessage : String :=
  "LINQ: Complex query detected. If enumerated multiple times, consider materializing with ToList()."

/-- The Count()-comparison block: the first invocation mentioning
`.Count()` whose parent is a binary expression whose text mentions
`> 0`, `!= 0` or `== 0` reports once (break on the full condition). -/
def countComparisonSuggestions (root : SyntaxNode) : List String :=
  match (edges root).find? (fun pc =>
      pc.2.kind == NodeKind.invocationExpression &&
        strContains pc.2.text ".Count()" &&
        isBinaryExpressionKind pc.1.kind &&
        (strContains pc.1.text "> 0" || strContains pc.1.text "!= 0" ||
          strContains pc.1.text "== 0")) with
  | some _ => [countVsAnyMessage]
  | none => []

/-- One first-match text rule over invocations (shared shape of the
Where-Count, Where-Any, Where-First, identity-Select, OrderBy-First and
ToList-Where blocks). -/
def firstInvocationMatch (root : SyntaxNode) (cond : String → Bool)
    (message : String) : List String :=
  match ((descendants root).filter
      (fun n => n.kind == NodeKind.invocationExpression)).find?
      (fun invocation => cond invocation.text) with
  | some _ => [message]
  | none => []

/-- The complex-query block: the first query expression sitting in an
equals-value clause whose text is longer than 100 characters reports
once (break on the full condition). -/
def complexQuerySuggestions (root : SyntaxNode) : List String :=
  match (edges root).find? (fun pc =>
      pc.2.kind == NodeKind.queryExpression &&
        (pc.1.kind == NodeKind.equalsValueClause &&
          pc.2.text.length > 100)) with
  | some _ => [complexQueryMessage]
  | none => []

/-- `GenerateLinqSuggestions` (Program.cs): its eight blocks run in
source order, each appending to one list. -/
def GenerateLinqSuggestions (root : SyntaxNode) : List String :=
  countComparisonSuggestions root ++
    firstInvocationMatch root (fun t =>
      strContains t ".Where(" && strContains t ".Count()") whereCountMessage ++
    firstInvocationMatch root (fun t =>
      strContains t ".Where(" && strContains t ".Any()") whereAnyMessage ++
    firstInvocationMatch root (fun t =>
      strContains t ".Where(" &&
        (strContains t ".First()" || strContains t ".FirstOrDefault()"))
      whereFirstMessage ++
    firstInvocationMatch root (fun t =>
      strContains t ".Select(x => x)") identitySelectMessage ++
    firstInvocationMatch root (fun t =>
      strContains t ".OrderBy(" && strContains t ".First") orderByFirstMessage ++
    firstInvocationMatch root (fun t =>
      strContains t ".ToList().Where(") toListWhereMessage ++
    complexQuerySuggestions root

/-- `AnalyzeCode` (Program.cs), starting from the parsed tree and the
compiler diagnostics supplied by the external Tree Provider: converts
non-hidden diagnostics, computes metrics, and accumulates the four
suggestion groups in source order with `AddRange`. -/
def AnalyzeCode (root : SyntaxNode)
    (diagnostics : List RoslynDiagnostic) : AnalysisResult :=
  let convertedDiagnostics :=
    (diagnostics.filter (fun d => !(d.severity == DiagSeverity.hidden))).map
      convertDiagnostic
  let metrics := CalculateMetrics root
  let s0 := GenerateSuggestions root diagnostics
  let s1 := s0 ++ GenerateSecuritySuggestions root
  let s2 := s1 ++ GeneratePerformanceSuggestions root
  let s3 := s2 ++ GenerateLinqSuggestions root
  { diagnostics := convertedDiagnostics
  , metrics := metrics
  , suggestions := s3 }

/-- JSON documents exchanged over the process boundary.  Numbers are
modelled as integers: the wire contract carries only C# `int` fields,
which both `JsonSerializer` and `JSON.parse` transport exactly. -/
inductive Json where
  | null
  | bool (b : Bool)
  | num (n : Int)
  | str (s : String)
  | arr (elems : List Json)
  | obj (fields : List (String × Json))
deriving Repr

/-- The serialization of `LocationInfo` by `JsonSerializer.Serialize`
(property order and `JsonPropertyName`s of Program.cs). -/
def serializeLocation (l : LocationInfo) : Json :=
  Json.obj
    [ ("line", Json.num l.line)
    , ("column", Json.num l.column)
    , ("file", Json.str l.file) ]

/-- The serialization of `DiagnosticResult`: a null `Location` is
written as JSON `null` (Program.cs sets no ignore condition). -/
def serializeDiagnostic (d : DiagnosticResult) : Json :=
  Json.obj
    [ ("id", Json.str d.id)
    , ("severity", Json.str d.severity)
    , ("message", Json.str d.message)
    , ("location", match d.location with
        | none => Json.null
        | some l => serializeLocation l)
    , ("category", Json.str d.category) ]

/-- The serialization of `CodeMetrics` (`complexity` is the
`JsonPropertyName` of `CyclomaticComplexity`). -/
def serializeMetrics (m : CodeMetrics) : Json :=
  Json.obj
    [ ("classes", Json.num m.classes)
    , ("methods", Json.num m.methods)
    , ("lines", Json.num m.lines)
    , ("complexity", Json.num m.complexity) ]

/-- The canonical serialization of `AnalysisResult` emitted by
`Main` (Program.cs) on standard output, as the JSON document it denotes
(the textual rendering and its re-reading across the process boundary
are the platform pair `JsonSerializer.Serialize`/`JSON.parse`). -/
def serializeAnalysisResult (r : AnalysisResult) : Json :=
  Json.obj
    [ ("diagnostics", Json.arr (r.diagnostics.map serializeDiagnostic))
    , ("metrics", serializeMetrics r.metrics)
    , ("suggestions", Json.arr (r.suggestions.map Json.str)) ]

/-- Element-wise reading of a JSON array (fails when any element fails). -/
def parseJsonList {α : Type} (f : Json → Option α) :
    List Json → Option (List α)
  | [] => some []
  | j :: rest =>
    match f j with
    | some a => (parseJsonList f rest).map (fun l => a :: l)
    | none => none

/-- The inverse reading of a wire `location` object into the
`DiagnosticResult.location` shape declared in roslynAnalyzer.ts. -/
def parseLocationInfo : Json → Option LocationInfo
  | Json.obj fields =>
    match fields.lookup "line", fields.lookup "column",
        fields.lookup "file" with
    | some (Json.num line), some (Json.num column),
        some (Json.str file) => some ⟨line, column, file⟩
    | _, _, _ => none
  | _ => none

/-- The inverse reading of a wire diagnostic into the `DiagnosticResult`
interface declared in roslynAnalyzer.ts (a JSON `null` location reads as
the absent optional field). -/
def parseDiagnosticResult : Json → Option DiagnosticResult
  | Json.obj fields =>
    match fields.lookup "id", fields.lookup "severity",
        fields.lookup "message", fields.lookup "location",
        fields.lookup "category" with
    | some (Json.str id), some (Json.str severity), some (Json.str message),
        some location, some (Json.str category) =>
      match location with
      | Json.null => some ⟨id, severity, message, none, category⟩
      | l => (parseLocationInfo l).map
          (fun li => ⟨id, severity, message, some li, category⟩)
    | _, _, _, _, _ => none
  | _ => none

/-- The inverse reading of wire metrics into the `CodeMetrics` interface
declared in roslynAnalyzer.ts. -/
def parseCodeMetrics : Json → Option CodeMetrics
  | Json.obj fields =>
    match fields.lookup "classes", fields.lookup "methods",
        fields.lookup "lines", fields.lookup "complexity" with
    | some (Json.num classes), some (Json.num methods),
        some (Json.num lines), some (Json.num complexity) =>
      some ⟨classes, methods, lines, complexity⟩
    | _, _, _, _ => none
  | _ => none

/-- A JSON string read as a suggestion string. -/
def parseStringItem : Json → Option String
  | Json.str s => some s
  | _ => none

/-- The inverse parse of the wire document into the `AnalysisResult`
interface declared in roslynAnalyzer.ts lines 9-32: the orchestrator
materializes the document with `JSON.parse` and these interfaces define
how its fields are read. -/
def parseAnalysisResult : Json → Option AnalysisResult
  | Json.obj fields =>
    match fields.lookup "diagnostics", fields.lookup "metrics",
        fields.lookup "suggestions" with
    | some (Json.arr diagnostics), some metrics,
        some (Json.arr suggestions) =>
      match parseJsonList parseDiagnosticResult diagnostics,
          parseCodeMetrics metrics,
          parseJsonList parseStringItem suggestions with
      | some d, some m, some s => some ⟨d, m, s⟩
      | _, _, _ => none
    | _, _, _ => none
  | _ => none

/-- JSON insignificant whitespace. -/
def jsonSkipWs (l : List Char) : List Char :=
  l.dropWhile (fun c => c == ' ' || c == '\t' || c == '\n' || c == '\r')

/-- Value of a hexadecimal digit. -/
def hexDigitValue (c : Char) : Option Nat :=
  if c.isDigit then some (c.toNat - 48)
  else if 'a' ≤ c && c ≤ 'f' then some (c.toNat - 87)
  else if 'A' ≤ c && c ≤ 'F' then some (c.toNat - 55)
  else none

/-- JSON string body after the opening quote, with the standard escape
sequences; the error payload is the input remaining at the failure. -/
def parseJsonStringBody (acc : List Char) :
    List Char → Except (List Char) (String × List Char)
  | [] => Except.error []
  | '"' :: rest => Except.ok (String.mk acc.reverse, rest)
  | '\\' :: esc :: rest =>
    match esc with
    | '"' => parseJsonStringBody ('"' :: acc) rest
    | '\\' => parseJsonStringBody ('\\' :: acc) rest
    | '/' => parseJsonStringBody ('/' :: acc) rest
    | 'b' => parseJsonStringBody ('\x08' :: acc) rest
    | 'f' => parseJsonStringBody ('\x0c' :: acc) rest
    | 'n' => parseJsonStringBody ('\n' :: acc) rest
    | 'r' => parseJsonStringBody ('\r' :: acc) rest
    | 't' => parseJsonStringBody ('\t' :: acc) rest
    | 'u' =>
      match rest with
      | h1 :: h2 :: h3 :: h4 :: rest2 =>
        match hexDigitValue h1, hexDigitValue h2,
            hexDigitValue h3, hexDigitValue h4 with
        | some v1, some v2, some v3, some v4 =>
          parseJsonStringBody
            (Char.ofNat (((v1 * 16 + v2) * 16 + v3) * 16 + v4) :: acc) rest2
        | _, _, _, _ => Except.error rest
      | _ => Except.error rest
    | _ => Except.error (esc :: rest)
  | '\\' :: [] => Except.error []
  | c :: rest => parseJsonStringBody (c :: acc) rest

/-- Consume a run of decimal digits. -/
def parseJsonDigits (acc : Nat) : List Char → (Nat × List Char)
  | [] => (acc, [])
  | c :: rest =>
    if c.isDigit then parseJsonDigits (acc * 10 + (c.toNat - 48)) rest
    else (acc, c :: rest)

/-- A JSON number (restricted to the integer literals the wire contract
carries). -/
def parseJsonNumber : List Char → Except (List Char) (Int × List Char)
  | [] => Except.error []
  | '-' :: rest =>
    match rest with
    | c :: _ =>
      if c.isDigit then
        let p := parseJsonDigits 0 rest
        Except.ok (-(p.1 : Int), p.2)
      else Except.error ('-' :: rest)
    | [] => Except.error ['-']
  | c :: rest =>
    if c.isDigit then
      let p := parseJsonDigits 0 (c :: rest)
      Except.ok ((p.1 : Int), p.2)
    else Except.error (c :: rest)

mutual

/-- A JSON value, fuel-indexed for termination; models the grammar
`JSON.parse` accepts.  The error payload is the remaining input at the
failure. -/
def parseJsonValue : Nat → List Char → Except (List Char) (Json × List Char)
  | 0, l => Except.error l
  | fuel + 1, l =>
    match jsonSkipWs l with
    | [] => Except.error []
    | 'n' :: rest =>
      if rest.take 3 == ['u', 'l', 'l'] then Except.ok (Json.null, rest.drop 3)
      else Except.error ('n' :: rest)
    | 't' :: rest =>
      if rest.take 3 == ['r', 'u', 'e'] then
        Except.ok (Json.bool true, rest.drop 3)
      else Except.error ('t' :: rest)
    | 'f' :: rest =>
      if rest.take 4 == ['a', 'l', 's', 'e'] then
        Except.ok (Json.bool false, rest.drop 4)
      else Except.error ('f' :: rest)
    | '"' :: rest =>
      match parseJsonStringBody [] rest with
      | Except.ok (s, r) => Except.ok (Json.str s, r)
      | Except.error e => Except.error e
    | '[' :: rest =>
      match jsonSkipWs rest with
      | ']' :: r2 => Except.ok (Json.arr [], r2)
      | r1 => parseJsonArrayItems fuel [] r1
    | '\x7b' :: rest =>
      match jsonSkipWs rest with
      | '\x7d' :: r2 => Except.ok (Json.obj [], r2)
      | r1 => parseJsonObjectFields fuel [] r1
    | l1 => match parseJsonNumber l1 with
      | Except.ok (n, r) => Except.ok (Json.num n, r)
      | Except.error e => Except.error e

/-- Comma-separated array items up to the closing bracket. -/
def parseJsonArrayItems (fuel : Nat) (acc : List Json) (l : List Char) :
    Except (List Char) (Json × List Char) :=
  match fuel with
  | 0 => Except.error l
  | fuel + 1 =>
    match parseJsonValue fuel l with
    | Except.error e => Except.error e
    | Except.ok (v, r) =>
      match jsonSkipWs r with
      | ',' :: r2 => parseJsonArrayItems fuel (v :: acc) r2
      | ']' :: r2 => Except.ok (Json.arr (v :: acc).reverse, r2)
      | r2 => Except.error r2

/-- Comma-separated `"key": value` fields up to the closing brace. -/
def parseJsonObjectFields (fuel : Nat) (acc : List (String × Json))
    (l : List Char) : Except (List Char) (Json × List Char) :=
  match fuel with
  | 0 => Except.error l
  | fuel + 1 =>
    match jsonSkipWs l with
    | '"' :: rest =>
      match parseJsonStringBody [] rest with
      | Except.error e => Except.error e
      | Except.ok (key, r) =>
        match jsonSkipWs r with
        | ':' :: r2 =>
          match parseJsonValue fuel r2 with
          | Except.error e => Except.error e
          | Except.ok (v, r3) =>
            match jsonSkipWs r3 with
            | ',' :: r4 => parseJsonObjectFields fuel ((key, v) :: acc) r4
            | '\x7d' :: r4 => Except.ok (Json.obj ((key, v) :: acc).reverse, r4)
            | r4 => Except.error r4
        | r2 => Except.error r2
    | l1 => Except.error l1

end

/-- A `JSON.parse` syntax error: position of the failure and the
character found there (if any).  Models the platform `SyntaxError`,
whose message reports the unexpected token, not the parsed input. -/
structure JsonSyntaxError where
  pos : Nat
  found : Option Char
deriving DecidableEq, Repr

/-- `JSON.parse`: parse one value, then require only trailing
whitespace.  Modelled from the ECMA-262 specification of `JSON.parse`
(restricted to integer numerals, the only numbers on this wire). -/
def jsonParse (s : String) : Except JsonSyntaxError Json :=
  match parseJsonValue (s.data.length + 1) s.data with
  | Except.error rem => Except.error ⟨s.data.length - rem.length, rem.head?⟩
  | Except.ok (v, rest) =>
    match jsonSkipWs rest with
    | [] => Except.ok v
    | c :: r => Except.error ⟨s.data.length - (c :: r).length, some c⟩

/-- Rendering of the platform `SyntaxError` thrown by `JSON.parse`, as
interpolated by `Failed to parse analysis result: $\x7berror\x7d`: it
names the unexpected token and its position; the raw parsed text is not
part of the payload. -/
def renderJsonSyntaxError (e : JsonSyntaxError) : String :=
  match e.found with
  | some c =>
    "SyntaxError: Unexpected token " ++ String.singleton c ++
      " in JSON at position " ++ toString e.pos
  | none => "SyntaxError: Unexpected end of JSON input"

/-- `path.join(__dirname, "..", "roslyn-analyzer")`, relative to the
package root. -/
def analyzerPath : String := "roslyn-analyzer"

/-- The compiled-artifact path whose presence defines availability. -/
def dllPath : String := analyzerPath ++ "/bin/Debug/net8.0/CSharpAnalyzer.dll"

/-- The filesystem as the set (list) of existing paths; file contents
are irrelevant to every claim under consideration. -/
def writeFile (fs : List String) (p : String) : List String :=
  if fs.contains p then fs else p :: fs

/-- `fs.unlink`: the path no longer exists afterwards (the orchestrator
swallows unlink errors, so a missing file changes nothing). -/
def unlinkFile (fs : List String) (p : String) : List String :=
  fs.filter (fun q => !(q == p))

/-- `isRoslynAvailable` (roslynAnalyzer.ts): `fs.access` on the
artifact path succeeds exactly when the path exists; derived from the
filesystem on each call, with no side effect. -/
def isRoslynAvailable (fs : List String) : Bool :=
  fs.contains dllPath

/-- `temp_$\x7bDate.now()\x7d.cs` inside the analyzer working area. -/
def tempFilePath (now : Nat) : String :=
  analyzerPath ++ "/temp_" ++ toString now ++ ".cs"

/-- What the spawned child process does, supplied by the environment:
either the spawn itself fails (error event) or the process closes with
an exit code and captured stdout/stderr. -/
inductive ProcessOutcome where
  | spawnFailed (message : String)
  | closed (exitCode : Int) (stdout : String) (stderr : String)

/-- Settlement of the `analyzeCode` promise: resolution with the value
`JSON.parse` produced (cast, unchecked, to the `AnalysisResult`
interface), or rejection with an `Error` message. -/
inductive AnalyzeOutcome where
  | ok (result : Json)
  | rejected (message : String)

/-- One completed `analyzeCode` invocation: the filesystem afterwards,
the ephemeral file it staged (if any), whether a child process was
spawned, and how the promise settled. -/
structure Invocation where
  fsAfter : List String
  staged : Option String
  spawned : Bool
  outcome : AnalyzeOutcome

/-- The not-built rejection message. -/
def notBuiltMessage : String :=
  "Roslyn analyzer not built. Run \x27dotnet build\x27 in roslyn-analyzer directory."

/-- The spawn-failure rejection message. -/
def spawnErrorMessage (message : String) : String :=
  "Failed to run analyzer: " ++ message

/-- The non-zero-exit rejection message. -/
def processExitMessage (exitCode : Int) (stderr : String) : String :=
  "Analysis failed (exit code " ++ toString exitCode ++ "):\n" ++ stderr

/-- The parse-failure rejection message: interpolates the caught
`SyntaxError`, not the raw stdout. -/
def resultParseMessage (e : JsonSyntaxError) : String :=
  "Failed to parse analysis result: " ++ renderJsonSyntaxError e

/-- Unconditional cleanup of the ephemeral file on process exit. -/
def cleanupTemp (fs : List String) (tempFile : Option String) : List String :=
  match tempFile with
  | some p => unlinkFile fs p
  | none => fs

/-- The staging discriminator of `analyzeCode`: the JavaScript
truthiness test `fileName && fileName.endsWith(".cs")`. -/
def usesFilePath : Option String → Bool
  | some fn => fn != "" && strEndsWith fn ".cs"
  | none => false

/-- The ephemeral file `analyzeCode` stages: none when the request names
a `.cs` file path, a fresh `temp_<now>.cs` otherwise. -/
def stagedFile (fileName : Option String) (now : Nat) : Option String :=
  if usesFilePath fileName then none else some (tempFilePath now)

/-- `analyzeCode` (roslynAnalyzer.ts): availability precondition, input
staging (`fileName` is used as the file path exactly when it is truthy
and ends in `.cs`; otherwise the source text is staged to a fresh
`temp_<now>.cs`), spawn, cleanup of the ephemeral file on both the
close and the error event, then result parsing (exit 0) or the exit /
spawn rejections. -/
def analyzeCode (fs : List String) (now : Nat) (code : String)
    (fileName : Option String) (proc : ProcessOutcome) : Invocation :=
  if !(isRoslynAvailable fs) then
    ⟨fs, none, false, AnalyzeOutcome.rejected notBuiltMessage⟩
  else
    let tempFile : Option String := stagedFile fileName now
    let fsStaged := match tempFile with
      | some p => writeFile fs p
      | none => fs
    match proc with
    | ProcessOutcome.spawnFailed message =>
      ⟨cleanupTemp fsStaged tempFile, tempFile, true,
        AnalyzeOutcome.rejected (spawnErrorMessage message)⟩
    | ProcessOutcome.closed exitCode stdout stderr =>
      let fsAfter := cleanupTemp fsStaged tempFile
      if exitCode == 0 then
        match jsonParse stdout with
        | Except.ok result =>
          ⟨fsAfter, tempFile, true, AnalyzeOutcome.ok result⟩
        | Except.error e =>
          ⟨fsAfter, tempFile, true,
            AnalyzeOutcome.rejected (resultParseMessage e)⟩
      else
        ⟨fsAfter, tempFile, true,
          AnalyzeOutcome.rejected (processExitMessage exitCode stderr)⟩

/-! ### Concrete inputs used by the claims -/

/-- The Roslyn parse tree of
`public class A \x7b public void M()\x7b if(true)\x7b\x7d if(false)\x7b\x7d \x7d \x7d`
(the concrete input of the metrics testable property). -/
def exampleIfTree : SyntaxNode :=
  node NodeKind.compilationUnit
    "public class A \x7b public void M()\x7b if(true)\x7b\x7d if(false)\x7b\x7d \x7d \x7d"
    "" [] []
    [ node NodeKind.classDeclaration
        "public class A \x7b public void M()\x7b if(true)\x7b\x7d if(false)\x7b\x7d \x7d \x7d"
        "A" [Modifier.publicKeyword] []
        [ node NodeKind.methodDeclaration
            "public void M()\x7b if(true)\x7b\x7d if(false)\x7b\x7d \x7d"
            "M" [Modifier.publicKeyword] []
            [ node NodeKind.predefinedType "void" "" [] [] []
            , node NodeKind.parameterList "()" "" [] [] []
            , node NodeKind.block "\x7b if(true)\x7b\x7d if(false)\x7b\x7d \x7d" "" [] []
                [ node NodeKind.ifStatement "if(true)\x7b\x7d" "" [] []
                    [ node NodeKind.trueLiteralExpression "true" "" [] [] []
                    , node NodeKind.block "\x7b\x7d" "" [] [] [] ]
                , node NodeKind.ifStatement "if(false)\x7b\x7d" "" [] []
                    [ node NodeKind.falseLiteralExpression "false" "" [] [] []
                    , node NodeKind.block "\x7b\x7d" "" [] [] [] ] ] ] ] ]

/-- The inner invocation `items.Where(x => x > 0)` of the deferred-query
example. -/
def whereInvocationNode : SyntaxNode :=
  node NodeKind.invocationExpression "items.Where(x => x > 0)" "" [] []
    [ node NodeKind.memberAccessExpression "items.Where" "" [] []
        [ node NodeKind.identifierName "items" "items" [] [] []
        , node NodeKind.identifierName "Where" "Where" [] [] [] ]
    , node NodeKind.argumentList "(x => x > 0)" "" [] []
        [ node NodeKind.argument "x => x > 0" "" [] []
            [ node NodeKind.simpleLambdaExpression "x => x > 0" "" [] [] [] ] ] ]

/-- The Roslyn parse tree of a unit declaring
`var list = items.Where(x => x > 0).ToList();` inside a method: a
deferred-operator chain that IS materialized by a trailing `.ToList()`. -/
def materializedQueryTree : SyntaxNode :=
  node NodeKind.compilationUnit
    "class C \x7b void M() \x7b var list = items.Where(x => x > 0).ToList(); \x7d \x7d"
    "" [] []
    [ node NodeKind.classDeclaration
        "class C \x7b void M() \x7b var list = items.Where(x => x > 0).ToList(); \x7d \x7d"
        "C" [] []
        [ node NodeKind.methodDeclaration
            "void M() \x7b var list = items.Where(x => x > 0).ToList(); \x7d"
            "M" [] []
            [ node NodeKind.predefinedType "void" "" [] [] []
            , node NodeKind.parameterList "()" "" [] [] []
            , node NodeKind.block
                "\x7b var list = items.Where(x => x > 0).ToList(); \x7d" "" [] []
                [ node NodeKind.localDeclarationStatement
                    "var list = items.Where(x => x > 0).ToList();" "" [] []
                    [ node NodeKind.variableDeclaration
                        "var list = items.Where(x => x > 0).ToList()" "" [] []
                        [ node NodeKind.variableDeclarator
                            "list = items.Where(x => x > 0).ToList()" "list" [] []
                            [ node NodeKind.equalsValueClause
                                "= items.Where(x => x > 0).ToList()" "" [] []
                                [ node NodeKind.invocationExpression
                                    "items.Where(x => x > 0).ToList()" "" [] []
                                    [ node NodeKind.memberAccessExpression
                                        "items.Where(x => x > 0).ToList" "" [] []
                                        [ whereInvocationNode
                                        , node NodeKind.identifierName "ToList" "ToList" [] [] [] ]
                                    , node NodeKind.argumentList "()" "" [] [] [] ] ] ] ] ] ] ] ] ]

/-- The Roslyn parse tree of a unit whose method body assigns string
literals to two members whose left-hand sides both name secrets:
`Config.Password = "a"; Config.Secret = "b";`. -/
def twoAssignmentSecretTree : SyntaxNode :=
  node NodeKind.compilationUnit
    "class C \x7b void M() \x7b Config.Password = \x22a\x22; Config.Secret = \x22b\x22; \x7d \x7d"
    "" [] []
    [ node NodeKind.classDeclaration
        "class C \x7b void M() \x7b Config.Password = \x22a\x22; Config.Secret = \x22b\x22; \x7d \x7d"
        "C" [] []
        [ node NodeKind.methodDeclaration
            "void M() \x7b Config.Password = \x22a\x22; Config.Secret = \x22b\x22; \x7d"
            "M" [] []
            [ node NodeKind.predefinedType "void" "" [] [] []
            , node NodeKind.parameterList "()" "" [] [] []
            , node NodeKind.block
                "\x7b Config.Password = \x22a\x22; Config.Secret = \x22b\x22; \x7d" "" [] []
                [ node NodeKind.expressionStatement "Config.Password = \x22a\x22;" "" [] []
                    [ node NodeKind.assignmentExpression "Config.Password = \x22a\x22" "" [] []
                        [ node NodeKind.memberAccessExpression "Config.Password" "" [] []
                            [ node NodeKind.identifierName "Config" "Config" [] [] []
                            , node NodeKind.identifierName "Password" "Password" [] [] [] ]
                        , node NodeKind.stringLiteralExpression "\x22a\x22" "" [] [] [] ] ]
                , node NodeKind.expressionStatement "Config.Secret = \x22b\x22;" "" [] []
                    [ node NodeKind.assignmentExpression "Config.Secret = \x22b\x22" "" [] []
                        [ node NodeKind.memberAccessExpression "Config.Secret" "" [] []
                            [ node NodeKind.identifierName "Config" "Config" [] [] []
                            , node NodeKind.identifierName "Secret" "Secret" [] [] [] ]
                        , node NodeKind.stringLiteralExpression "\x22b\x22" "" [] [] [] ] ] ] ] ] ]

/-- A tree holding two string literals whose direct parents are variable
declarators with secret-naming identifiers (the shape the declarator
branch of the hardcoded-secret loop dispatches on). -/
def twoDeclaratorSecretTree : SyntaxNode :=
  node NodeKind.compilationUnit "passwordOne = \x22a\x22 passwordTwo = \x22b\x22" "" [] []
    [ node NodeKind.variableDeclaration "passwordOne = \x22a\x22 passwordTwo = \x22b\x22" "" [] []
        [ node NodeKind.variableDeclarator "passwordOne = \x22a\x22" "passwordOne" [] []
            [ node NodeKind.stringLiteralExpression "\x22a\x22" "" [] [] [] ]
        , node NodeKind.variableDeclarator "passwordTwo = \x22b\x22" "passwordTwo" [] []
            [ node NodeKind.stringLiteralExpression "\x22b\x22" "" [] [] [] ] ] ]

/-- A single leaf compilation unit (no declarations, no statements). -/
def emptyUnitTree : SyntaxNode :=
  node NodeKind.compilationUnit "" "" [] [] []

/-- The decision-node kinds named by the specification formula for
cyclomatic complexity (stated in the specification's words, to be
compared with `CalculateCyclomaticComplexity`). -/
def isDecisionNodeKind (k : NodeKind) : Bool :=
  k == NodeKind.ifStatement || k == NodeKind.whileStatement ||
    k == NodeKind.forStatement || k == NodeKind.forEachStatement ||
    k == NodeKind.caseSwitchLabel || k == NodeKind.catchClause ||
    k == NodeKind.conditionalExpression

/-- The short-circuit logical binary expression kinds named by the
specification formula. -/
def isShortCircuitKind (k : NodeKind) : Bool :=
  k == NodeKind.logicalAndExpression || k == NodeKind.logicalOrExpression

/-- A (parent, literal) pair the assignment branch of the
hardcoded-secret loop fires on. -/
def assignmentSecretHit (pc : SyntaxNode × SyntaxNode) : Bool :=
  pc.2.kind == NodeKind.stringLiteralExpression &&
    pc.1.kind == NodeKind.assignmentExpression &&
    secretKeywordsLeft (strToLower (assignmentLeft pc.1).text)

/-- A (parent, literal) pair the declarator branch of the
hardcoded-secret loop fires on. -/
def declaratorSecretHit (pc : SyntaxNode × SyntaxNode) : Bool :=
  pc.2.kind == NodeKind.stringLiteralExpression &&
    pc.1.kind == NodeKind.variableDeclarator &&
    secretKeywordsVar (strToLower pc.1.ident)

/-- A stdout text that is not JSON (a crash banner), used to examine the
parse-failure rejection. -/
def crashStdout : String :=
  "@@@ not json at all, the analyzer crashed while writing diagnostics"

/-! ### Helper lemmas -/

theorem data_append (a b : String) : (a ++ b).data = a.data ++ b.data := rfl

theorem mem_unlinkFile_self (fs : List String) (p : String) :
    p ∉ unlinkFile fs p := by
  simp [unlinkFile]

theorem parseJsonList_map {α : Type} (f : α → Json) (g : Json → Option α)
    (hfg : ∀ a, g (f a) = some a) (l : List α) :
    parseJsonList g (l.map f) = some l := by
  induction l with
  | nil => rfl
  | cons a t ih => simp [parseJsonList, hfg, ih]

theorem parseDiagnosticResult_serialize (d : DiagnosticResult) :
    parseDiagnosticResult (serializeDiagnostic d) = some d := by
  cases d with
  | mk id severity message location category => cases location <;> rfl

theorem parseCodeMetrics_serialize (m : CodeMetrics) :
    parseCodeMetrics (serializeMetrics m) = some m := rfl

/-! ### Claims -/

/-- C9: for every analysis, the suggestions of the aggregated
`AnalysisResult` are the concatenation, in fixed order, of the
basic/style, security, performance and query-optimization (LINQ)
suggestion groups, preserving each group's insertion order with no
cross-category deduplication. -/
theorem c9_suggestion_category_order (root : SyntaxNode)
    (diagnostics : List RoslynDiagnostic) :
    (AnalyzeCode root diagnostics).suggestions =
      GenerateSuggestions root diagnostics ++ GenerateSecuritySuggestions root ++
        GeneratePerformanceSuggestions root ++ GenerateLinqSuggestions root := rfl

/-- C4: when the availability query (a side-effect-free filesystem
inspection, re-derived on each call) yields NotBuilt, `analyzeCode`
rejects immediately with the not-built error, leaving the filesystem
untouched (no staging) and spawning no process. -/
theorem c4_notbuilt_rejection (fs : List String) (now : Nat) (code : String)
    (fileName : Option String) (proc : ProcessOutcome)
    (h : isRoslynAvailable fs = false) :
    analyzeCode fs now code fileName proc =
      ⟨fs, none, false, AnalyzeOutcome.rejected notBuiltMessage⟩ := by
  simp [analyzeCode, h]

/-- Witness for C4 at a filesystem with no compiled artifact. -/
theorem c4_notbuilt_rejection_witness :
    analyzeCode [] 0 "class C \x7b\x7d" none (ProcessOutcome.closed 0 "" "") =
      ⟨[], none, false, AnalyzeOutcome.rejected notBuiltMessage⟩ :=
  c4_notbuilt_rejection [] 0 "class C \x7b\x7d" none
    (ProcessOutcome.closed 0 "" "") rfl

/-- C3: parsing the canonical serialization of any constructed
`AnalysisResult` yields the value back unchanged (exact round-trip of
the wire contract). -/
theorem c3_roundtrip (r : AnalysisResult) :
    parseAnalysisResult (serializeAnalysisResult r) = some r := by
  cases r with
  | mk diagnostics metrics suggestions =>
    have hd := parseJsonList_map serializeDiagnostic parseDiagnosticResult
      parseDiagnosticResult_serialize diagnostics
    have hs := parseJsonList_map Json.str parseStringItem
      (fun s => rfl) suggestions
    have hstep : parseAnalysisResult
        (serializeAnalysisResult ⟨diagnostics, metrics, suggestions⟩) =
        match parseJsonList parseDiagnosticResult
            (diagnostics.map serializeDiagnostic),
          parseCodeMetrics (serializeMetrics metrics),
          parseJsonList parseStringItem (suggestions.map Json.str) with
        | some d, some m, some s => some ⟨d, m, s⟩
        | _, _, _ => none := rfl
    rw [hstep, hd, hs, parseCodeMetrics_serialize]

theorem kindTally (k : NodeKind) :
    ((if (k == NodeKind.ifStatement) = true then (1 : Nat) else 0) +
     (if (k == NodeKind.whileStatement) = true then 1 else 0) +
     (if (k == NodeKind.forStatement) = true then 1 else 0) +
     (if (k == NodeKind.forEachStatement) = true then 1 else 0) +
     (if (k == NodeKind.caseSwitchLabel) = true then 1 else 0) +
     (if (k == NodeKind.catchClause) = true then 1 else 0) +
     (if (k == NodeKind.conditionalExpression) = true then 1 else 0) +
     (if (isBinaryExpressionKind k &&
          (k == NodeKind.logicalAndExpression ||
           k == NodeKind.logicalOrExpression)) = true then 1 else 0)) =
    (if isDecisionNodeKind k = true then 1 else 0) +
      (if isShortCircuitKind k = true then 1 else 0) := by
  cases k <;> decide

theorem complexity_formula (root : SyntaxNode) :
    CalculateCyclomaticComplexity root =
      1 + ((descendants root).filter (fun n => isDecisionNodeKind n.kind)).length
        + ((descendants root).filter (fun n => isShortCircuitKind n.kind)).length := by
  unfold CalculateCyclomaticComplexity countOfKind
  simp only [← List.countP_eq_length_filter]
  generalize descendants root = l
  induction l with
  | nil => rfl
  | cons a t ih =>
    simp only [List.countP_cons]
    have := kindTally a.kind
    omega

/-- C5: the metrics calculator returns cyclomatic complexity equal to 1
plus the number of decision nodes (`if`/`while`/`for`/`foreach`/
case-label/`catch`/conditional) plus the number of logical-AND/OR
binary expressions; a unit with none of those has complexity 1; and the
parse tree of
`public class A \x7b public void M()\x7b if(true)\x7b\x7d if(false)\x7b\x7d \x7d \x7d`
yields classes = 1, methods = 1, complexity = 3. -/
theorem c5_metrics_correct :
    (∀ root : SyntaxNode,
      (descendants root).all
        (fun n => !(isDecisionNodeKind n.kind || isShortCircuitKind n.kind)) = true →
      CalculateCyclomaticComplexity root = 1) ∧
    (∀ root : SyntaxNode,
      CalculateCyclomaticComplexity root =
        1 + ((descendants root).filter (fun n => isDecisionNodeKind n.kind)).length
          + ((descendants root).filter (fun n => isShortCircuitKind n.kind)).length) ∧
    (CalculateMetrics exampleIfTree).classes = 1 ∧
    (CalculateMetrics exampleIfTree).methods = 1 ∧
    (CalculateMetrics exampleIfTree).complexity = 3 := by
  refine ⟨?_, complexity_formula, by decide, by decide, by decide⟩
  intro root h
  have hall := List.all_eq_true.mp h
  have h1 : (descendants root).filter (fun n => isDecisionNodeKind n.kind) = [] := by
    refine List.filter_eq_nil_iff.mpr (fun a ha => ?_)
    have := hall a ha
    simp only [Bool.not_eq_true'] at this
    rcases Bool.or_eq_false_iff.mp this with ⟨h1a, _⟩
    simp [h1a]
  have h2 : (descendants root).filter (fun n => isShortCircuitKind n.kind) = [] := by
    refine List.filter_eq_nil_iff.mpr (fun a ha => ?_)
    have := hall a ha
    simp only [Bool.not_eq_true'] at this
    rcases Bool.or_eq_false_iff.mp this with ⟨_, h2a⟩
    simp [h2a]
  rw [complexity_formula, h1, h2]
  rfl

/-- Witness for C5 at the empty compilation unit. -/
theorem c5_metrics_correct_witness :
    CalculateCyclomaticComplexity emptyUnitTree = 1 :=
  c5_metrics_correct.1 emptyUnitTree rfl

theorem analyzeCode_fields (fs : List String) (now : Nat) (code : String)
    (fileName : Option String) (proc : ProcessOutcome)
    (hav : isRoslynAvailable fs = true) :
    (analyzeCode fs now code fileName proc).staged = stagedFile fileName now ∧
    (analyzeCode fs now code fileName proc).spawned = true ∧
    (analyzeCode fs now code fileName proc).fsAfter =
      cleanupTemp
        (match stagedFile fileName now with
         | some p => writeFile fs p
         | none => fs)
        (stagedFile fileName now) := by
  unfold analyzeCode
  rw [hav]
  cases proc with
  | spawnFailed message => exact ⟨rfl, rfl, rfl⟩
  | closed exitCode stdout stderr =>
    by_cases hc : (exitCode == 0) = true
    · cases hjp : jsonParse stdout <;> simp [hc, hjp]
    · simp [hc]

/-- C1: whenever an `analyzeCode` invocation stages an ephemeral source
file, that file is absent from the filesystem after the invocation
settles, on every exit path (spawn failure, non-zero exit, zero exit
with either parse success or parse failure). -/
theorem c1_ephemeral_cleanup (fs : List String) (now : Nat) (code : String)
    (fileName : Option String) (proc : ProcessOutcome) (p : String)
    (h : (analyzeCode fs now code fileName proc).staged = some p) :
    p ∉ (analyzeCode fs now code fileName proc).fsAfter := by
  cases hav : isRoslynAvailable fs with
  | false => simp [analyzeCode, hav] at h
  | true =>
    obtain ⟨hst, _, hfs⟩ := analyzeCode_fields fs now code fileName proc hav
    rw [hst] at h
    rw [hfs]
    cases hs : stagedFile fileName now with
    | none => rw [hs] at h; exact absurd h (by simp)
    | some t =>
      rw [hs] at h
      obtain rfl := Option.some.inj h
      simp only [cleanupTemp]
      exact mem_unlinkFile_self _ _

/-- Witness for C1: a staging invocation with a clean exit. -/
theorem c1_ephemeral_cleanup_witness :
    (analyzeCode [dllPath] 0 "class C \x7b\x7d" none
        (ProcessOutcome.closed 0 "" "")).staged = some (tempFilePath 0) ∧
    tempFilePath 0 ∉
      (analyzeCode [dllPath] 0 "class C \x7b\x7d" none
        (ProcessOutcome.closed 0 "" "")).fsAfter :=
  ⟨rfl, c1_ephemeral_cleanup [dllPath] 0 "class C \x7b\x7d" none
    (ProcessOutcome.closed 0 "" "") (tempFilePath 0) rfl⟩

/-- C2 (counterexample): a request supplying BOTH a source text and a
`.cs` file path is not rejected at all — no validation error exists;
the call proceeds in file-path mode (no staging) and resolves. -/
theorem c2_both_inputs_counterexample :
    ((analyzeCode [dllPath] 0 "class C \x7b\x7d" (some "Program.cs")
        (ProcessOutcome.closed 0 "\x7b\x7d" "")).staged = none) ∧
    ((analyzeCode [dllPath] 0 "class C \x7b\x7d" (some "Program.cs")
        (ProcessOutcome.closed 0 "\x7b\x7d" "")).outcome =
      AnalyzeOutcome.ok (Json.obj [])) := by
  exact ⟨rfl, rfl⟩

/-- C2 (amended): `analyzeCode` performs no input-combination
validation.  The source text is always required; when availability
holds the call always proceeds to spawn, and staging is decided solely
by the `fileName` truthiness-and-`.cs` test (`usesFilePath`): a request
carrying both inputs silently uses the file path, one carrying only
source text stages it. -/
theorem c2_no_validation (fs : List String) (now : Nat) (code : String)
    (fileName : Option String) (proc : ProcessOutcome)
    (hav : isRoslynAvailable fs = true) :
    (analyzeCode fs now code fileName proc).spawned = true ∧
    (analyzeCode fs now code fileName proc).staged = stagedFile fileName now ∧
    stagedFile (some "Program.cs") now = none ∧
    stagedFile none now = some (tempFilePath now) :=
  ⟨(analyzeCode_fields fs now code fileName proc hav).2.1,
   (analyzeCode_fields fs now code fileName proc hav).1, rfl, rfl⟩

/-- Witness for C2 (amended) at a both-supplied request. -/
theorem c2_no_validation_witness :
    (analyzeCode [dllPath] 3 "class C \x7b\x7d" (some "Lib.cs")
        (ProcessOutcome.closed 1 "" "boom")).spawned = true ∧
    (analyzeCode [dllPath] 3 "class C \x7b\x7d" (some "Lib.cs")
        (ProcessOutcome.closed 1 "" "boom")).staged =
      stagedFile (some "Lib.cs") 3 ∧
    stagedFile (some "Program.cs") 3 = none ∧
    stagedFile none 3 = some (tempFilePath 3) :=
  c2_no_validation [dllPath] 3 "class C \x7b\x7d" (some "Lib.cs")
    (ProcessOutcome.closed 1 "" "boom") rfl

/-- C6 (counterexample): for a non-JSON stdout, the rejection carries
the `JSON.parse` syntax error, and the raw stdout text is not contained
in the rejection message. -/
theorem c6_raw_stdout_not_carried :
    (analyzeCode [dllPath] 0 "class C \x7b\x7d" none
        (ProcessOutcome.closed 0 crashStdout "")).outcome =
      AnalyzeOutcome.rejected
        "Failed to parse analysis result: SyntaxError: Unexpected token @ in JSON at position 0" ∧
    strContains
      "Failed to parse analysis result: SyntaxError: Unexpected token @ in JSON at position 0"
      crashStdout = false := by
  exact ⟨rfl, by decide⟩

/-- C6 (amended): when the process exits 0 and stdout is not valid
JSON, `analyzeCode` rejects with a message interpolating the caught
parse error (the `SyntaxError`), not the raw stdout. -/
theorem c6_parse_failure_payload (fs : List String) (now : Nat)
    (code : String) (fileName : Option String) (stdout stderr : String)
    (e : JsonSyntaxError) (hav : isRoslynAvailable fs = true)
    (hp : jsonParse stdout = Except.error e) :
    (analyzeCode fs now code fileName
        (ProcessOutcome.closed 0 stdout stderr)).outcome =
      AnalyzeOutcome.rejected
        ("Failed to parse analysis result: " ++ renderJsonSyntaxError e) := by
  simp [analyzeCode, hav, hp, resultParseMessage]

/-- Witness for C6 (amended) at the crash banner stdout. -/
theorem c6_parse_failure_payload_witness :
    (analyzeCode [dllPath] 1 "class C \x7b\x7d" none
        (ProcessOutcome.closed 0 crashStdout "err")).outcome =
      AnalyzeOutcome.rejected
        ("Failed to parse analysis result: " ++
          renderJsonSyntaxError ⟨0, some '@'⟩) :=
  c6_parse_failure_payload [dllPath] 1 "class C \x7b\x7d" none crashStdout
    "err" ⟨0, some '@'⟩ rfl rfl

/-- C10: on a zero exit, `analyzeCode` resolves with whatever value
`JSON.parse` produced, with no validation against the `AnalysisResult`
shape; in particular the JSON texts `null` and `\x7b\x7d` are accepted
although neither satisfies the wire contract. -/
theorem c10_unvalidated_parse :
    (∀ (fs : List String) (now : Nat) (code : String)
        (fileName : Option String) (stdout stderr : String) (v : Json),
      isRoslynAvailable fs = true → jsonParse stdout = Except.ok v →
      (analyzeCode fs now code fileName
          (ProcessOutcome.closed 0 stdout stderr)).outcome =
        AnalyzeOutcome.ok v) ∧
    jsonParse "null" = Except.ok Json.null ∧
    jsonParse "\x7b\x7d" = Except.ok (Json.obj []) ∧
    parseAnalysisResult Json.null = none ∧
    parseAnalysisResult (Json.obj []) = none := by
  refine ⟨?_, rfl, rfl, rfl, rfl⟩
  intro fs now code fileName stdout stderr v hav hp
  simp [analyzeCode, hav, hp]

/-- Witness for C10 at stdout `null`. -/
theorem c10_unvalidated_parse_witness :
    (analyzeCode [dllPath] 0 "class C \x7b\x7d" none
        (ProcessOutcome.closed 0 "null" "")).outcome =
      AnalyzeOutcome.ok Json.null :=
  c10_unvalidated_parse.1 [dllPath] 0 "class C \x7b\x7d" none "null" ""
    Json.null rfl rfl

/-- C7 (code-bug exhibit): for the parse tree of
`var list = items.Where(x => x > 0).ToList();` — whose initializer DOES
carry a trailing `.ToList()` — the performance rules still emit the
deferred-query suggestion, because the unparenthesized condition binds
the `.ToList()`/`.ToArray()` exemption only to the `.OrderBy(`
disjunct. -/
theorem c7_materialized_query_still_flagged :
    strEndsWith "items.Where(x => x > 0).ToList()" ".ToList()" = true ∧
    strContains "items.Where(x => x > 0).ToList()" ".ToList()" = true ∧
    GeneratePerformanceSuggestions materializedQueryTree =
      [deferredQueryMessage "list"] := by
  exact ⟨by decide, by decide, rfl⟩

theorem secretVariableMessage_ne (name : String) :
    secretVariableMessage name ≠ secretAssignmentMessage := by
  intro h
  have hd := congrArg String.data h
  unfold secretVariableMessage secretAssignmentMessage at hd
  rw [data_append, data_append, List.append_assoc] at hd
  have ht := congrArg
    (List.take "SECURITY: Hardcoded sensitive data in variable \x27".data.length) hd
  rw [List.take_left] at ht
  exact absurd ht (by decide)

theorem secretScan_assign_count (l : List (SyntaxNode × SyntaxNode)) :
    (secretScan l).count secretAssignmentMessage ≤ 1 := by
  induction l with
  | nil => simp [secretScan]
  | cons pc rest ih =>
    obtain ⟨parent, lit⟩ := pc
    by_cases h1 : (lit.kind == NodeKind.stringLiteralExpression) = true
    · by_cases h2 : (parent.kind == NodeKind.assignmentExpression) = true
      · by_cases h3 : secretKeywordsLeft (strToLower (assignmentLeft parent).text) = true
        · simp [secretScan, h1, h2, h3]
        · simpa [secretScan, h1, h2, h3] using ih
      · by_cases h4 : (parent.kind == NodeKind.variableDeclarator) = true
        · by_cases h5 : secretKeywordsVar (strToLower parent.ident) = true
          · have hne := secretVariableMessage_ne parent.ident
            simp only [secretScan, h1, h2, h4, h5, if_true, if_false,
              Bool.false_eq_true, ite_false, ite_true, List.count_cons]
            simpa [hne] using ih
          · simpa [secretScan, h1, h2, h4, h5] using ih
        · simpa [secretScan, h1, h2, h4] using ih
    · simpa [secretScan, h1] using ih

theorem secretScan_no_assign :
    ∀ l : List (SyntaxNode × SyntaxNode),
    (∀ pc ∈ l, assignmentSecretHit pc = false) →
    secretScan l =
      (l.filter declaratorSecretHit).map
        (fun pc => secretVariableMessage pc.1.ident)
  | [], _ => rfl
  | (parent, lit) :: rest, h => by
    have hpc := h (parent, lit) (List.mem_cons_self _ _)
    have hrest : ∀ pc ∈ rest, assignmentSecretHit pc = false :=
      fun x hx => h x (List.mem_cons_of_mem _ hx)
    have ih := secretScan_no_assign rest hrest
    by_cases h1 : (lit.kind == NodeKind.stringLiteralExpression) = true
    · by_cases h2 : (parent.kind == NodeKind.assignmentExpression) = true
      · have h3 : secretKeywordsLeft (strToLower (assignmentLeft parent).text) = false := by
          have := hpc
          simp only [assignmentSecretHit, h1, h2, Bool.true_and] at this
          exact this
        have h4 : (parent.kind == NodeKind.variableDeclarator) = false := by
          have hk := eq_of_beq h2
          rw [hk]
          decide
        simp [secretScan, List.filter_cons, declaratorSecretHit, h1, h2, h3,
          h4, ih]
      · by_cases h5 : (parent.kind == NodeKind.variableDeclarator) = true
        · by_cases h6 : secretKeywordsVar (strToLower parent.ident) = true
          · simp [secretScan, List.filter_cons, declaratorSecretHit, h1, h2,
              h5, h6, ih]
          · simp [secretScan, List.filter_cons, declaratorSecretHit, h1, h2,
              h5, h6, ih]
        · simp [secretScan, List.filter_cons, declaratorSecretHit, h1, h2, h5,
            ih]
    · simp [secretScan, List.filter_cons, declaratorSecretHit, h1, ih]

theorem isLit_and_declHit (pc : SyntaxNode × SyntaxNode) :
    (declaratorSecretHit pc && isLiteralExpressionKind pc.2.kind) =
      declaratorSecretHit pc := by
  by_cases h : (pc.2.kind == NodeKind.stringLiteralExpression) = true
  · have hk := eq_of_beq h
    rw [show isLiteralExpressionKind pc.2.kind = true by rw [hk]; decide]
    simp
  · have h' : (pc.2.kind == NodeKind.stringLiteralExpression) = false := by
      revert h
      cases pc.2.kind == NodeKind.stringLiteralExpression <;> simp
    simp [declaratorSecretHit, h']

/-- C8 (counterexample): two offending assignments yield ONE suggestion
(the assignment branch breaks out of the scan after the first match),
while two offending declarators yield one suggestion EACH (the
declarator branch never breaks) — the opposite of the claimed dedup
policies for the two cases. -/
theorem c8_dedup_swap_counterexample :
    GenerateSecuritySuggestions twoAssignmentSecretTree =
      [secretAssignmentMessage] ∧
    GenerateSecuritySuggestions twoDeclaratorSecretTree =
      [secretVariableMessage "passwordOne",
       secretVariableMessage "passwordTwo"] := by
  exact ⟨rfl, rfl⟩

/-- C8 (amended): in the hardcoded-secret detector the assignment
branch is first-match-only — its message appears at most once per unit,
and the matching `break` ends the whole literal scan — while the
declarator branch emits one suggestion per offending declarator with no
dedup (on scans with no assignment match, the output is exactly the
per-declarator message list). -/
theorem c8_secret_dedup :
    (∀ root : SyntaxNode,
      (hardcodedSecretSuggestions root).count secretAssignmentMessage ≤ 1) ∧
    (∀ root : SyntaxNode,
      ((edges root).all (fun pc => !assignmentSecretHit pc)) = true →
      hardcodedSecretSuggestions root =
        ((edges root).filter declaratorSecretHit).map
          (fun pc => secretVariableMessage pc.1.ident)) := by
  constructor
  · intro root
    exact secretScan_assign_count _
  · intro root h
    unfold hardcodedSecretSuggestions
    rw [secretScan_no_assign]
    · rw [List.filter_filter]
      congr 1
      exact List.filter_congr (fun pc _ => isLit_and_declHit pc)
    · intro pc hpc
      have := List.all_eq_true.mp h pc (List.mem_filter.mp hpc).1
      simpa using this

/-- Witness for C8 (amended) at the two-declarator tree. -/
theorem c8_secret_dedup_witness :
    hardcodedSecretSuggestions twoDeclaratorSecretTree =
      [secretVariableMessage "passwordOne",
       secretVariableMessage "passwordTwo"] := by
  have h := c8_secret_dedup.2 twoDeclaratorSecretTree (by decide)
  simpa using h

end CSRev
